import Mathlib

/-!
Verification of the `torcheeg.model_selection` split subsystem
(`split_cross_trial.py` and `subcategory.py`).

The Python code is shallowly embedded: pandas tables become lists of rows,
the split directory on disk becomes an explicit state value threaded through
the functions, and Python exceptions become `Except String` errors carrying
the exception message.  CSV round-tripping (`to_csv` followed by `read_csv`)
is modelled as the identity on tables: the serializer is deterministic, so
table equality corresponds to byte equality of the written files.
-/

namespace TorchEEG

/-- One row of a dataset's metadata table (`dataset.info` in the source).
`subject_id` and `trial_id` are the two columns `train_test_split_cross_trial`
inspects; `sample` stands for the remaining per-sample columns and
distinguishes the rows of one trial.  Trial ids are modelled as naturals;
NumPy's negative-index wrapping is outside the modelled input space. -/
structure Row where
  subject_id : String
  trial_id : Nat
  sample : Nat
deriving DecidableEq

/-- A metadata table: the ordered list of rows of a pandas DataFrame. -/
abbrev Table := List Row

/-- A dataset: its metadata index `info` plus `config`, an opaque stand-in for
all non-metadata configuration (transforms, root paths) that `copy(dataset)`
shares between the original and the returned views. -/
structure Dataset where
  info : Table
  config : Nat
deriving DecidableEq

/-- The state of the split directory at `split_path`.
`absent` means `os.path.exists(split_path)` is false; `present tr te` means
the directory exists and holds `train.csv` / `test.csv` with the given
contents (`none` = the file is missing). -/
inductive SplitDir where
  | absent : SplitDir
  | present (train : Option Table) (test : Option Table) : SplitDir
deriving DecidableEq

/-- Helper for `pySetList`: keeps the elements not seen before, in order. -/
def pySetAux [DecidableEq α] : List α → List α → List α
  | _, [] => []
  | seen, x :: xs =>
    if x ∈ seen then pySetAux seen xs else x :: pySetAux (x :: seen) xs

/-- Model of Python's `list(set(xs))`: the distinct elements of `xs`.
CPython's set iteration order is implementation defined; it is modelled here
as first-encounter order, which is what CPython produces for the small
non-negative integer ids and short subject lists the claims exercise. -/
def pySetList [DecidableEq α] (l : List α) : List α := pySetAux [] l

/-- sklearn's test-group size for a fractional `test_size`:
`n_test = ceil(test_size * n)`, computed on the numerator and denominator of
the (normalised, positive-denominator) rational `t`, so that
`nTestOf t n = ⌈t * n⌉` as `ceil(x) = -floor(-x)` with `Int.ediv` flooring. -/
def nTestOf (t : ℚ) (n : Nat) : Nat :=
  (-((-(t.num * n)).ediv (t.den : Int))).toNat

/-- The rendering of the rational `test_size` inside sklearn's messages
(Python prints the float; the fraction form stands in for it). -/
def ratStr (q : ℚ) : String := toString q.num ++ "/" ++ toString q.den

/-- sklearn's `_validate_shuffle_split` message for an out-of-range
fractional `test_size` (quotes elided). -/
def sklearnBadTestSizeMsg (t : ℚ) : String :=
  "ValueError: test_size=" ++ ratStr t ++
    " should be either positive and smaller than the number of samples" ++
    " or a float in the (0, 1) range"

/-- sklearn's `_validate_shuffle_split` message when the computed train
group is empty (`n_train == 0`): it reports `n_samples` and `test_size`
only — it does not name any subject. -/
def sklearnEmptyTrainMsg (n : Nat) (t : ℚ) : String :=
  "ValueError: With n_samples=" ++ toString n ++ ", test_size=" ++ ratStr t ++
    " and train_size=None, the resulting train set will be empty." ++
    " Adjust any of the aforementioned parameters."

/-- Model of `sklearn.model_selection.train_test_split(xs, test_size, shuffle=False)`
restricted to the `shuffle=False` code path used by the claims, including
sklearn's own `_validate_shuffle_split` validation:

* a fractional `test_size` must lie strictly in `(0, 1)` (on the normalised
  rational, `0 < num` and `num < den`), else sklearn raises its own
  `ValueError`;
* `n_test = ceil(test_size * n)` and `n_train = n - n_test`; when
  `n_train == 0` sklearn raises its empty-train-set `ValueError` — this
  happens inside `train_test_split`, before control returns to the caller;
* otherwise the head of the list is the train part and the tail the test
  part.  (`shuffle=True` delegates to NumPy's seeded permutation, an
  external collaborator outside this model.) -/
def sklearnSplit (t : ℚ) (xs : List Nat) :
    Except String (List Nat × List Nat) :=
  if t.num ≤ 0 ∨ (t.den : Int) ≤ t.num then .error (sklearnBadTestSizeMsg t)
  else
    let n := xs.length
    let nTe := nTestOf t n
    if n - nTe = 0 then .error (sklearnEmptyTrainMsg n t)
    else .ok (xs.take (n - nTe), xs.drop (n - nTe))

/-- The NumPy out-of-bounds message for `np.array(arr)[i]`. -/
def indexErr (i n : Nat) : String :=
  "IndexError: index " ++ toString i ++
    " is out of bounds for axis 0 with size " ++ toString n

/-- Model of `np.array(arr)[idxs].tolist()`: fancy indexing of `arr` by the
index list `idxs`, raising `IndexError` at the first out-of-range index. -/
def npIndex (arr : List Nat) : List Nat → Except String (List Nat)
  | [] => .ok []
  | i :: is =>
    match arr[i]? with
    | none => .error (indexErr i arr.length)
    | some v =>
      match npIndex arr is with
      | .error e => .error e
      | .ok vs => .ok (v :: vs)

/-- The `ValueError` message raised in `train_test_split_cross_trial` when a
subject's trial split leaves an empty group (line 91 of the source). -/
def degenMsg (s : String) : String :=
  "The number of training or testing trials for subject " ++ s ++ " is zero."

/-- The pandas `FileNotFoundError` raised by `pd.read_csv` on a missing file. -/
def fileErr (name : String) : String := "FileNotFoundError: " ++ name

/-- The pandas error raised by `pd.concat(None)` when the subject loop never
ran (empty dataset), leaving `train_info = None`. -/
def concatNoneMsg : String :=
  "TypeError: cannot concatenate an object of type NoneType"

/-- `subject_info = info[info['subject_id'] == subject]` (source line 80). -/
def subjectInfoOf (info : Table) (s : String) : Table :=
  info.filter fun r => r.subject_id == s

/-- `trial_ids = list(set(subject_info['trial_id']))` (source line 81). -/
def trialIdsOf (info : Table) (s : String) : List Nat :=
  pySetList ((subjectInfoOf info s).map Row.trial_id)

/-- The row-collection loops of the source (lines 99-110): for each selected
trial id, append the rows of `subject_info` carrying that id, concatenating
in the order the trial ids were selected. -/
def gatherRows (si : Table) (tids : List Nat) : Table :=
  tids.flatMap fun tid => si.filter fun r => r.trial_id == tid

/-- The body of the per-subject loop of `train_test_split_cross_trial`
(source lines 79-110): filter the rows of subject `s`, collect the distinct
trial ids, call sklearn's `train_test_split` (whose internal validation may
itself raise, on line 83, before the repo's own check is reached), then run
the repo's empty-group check of lines 89-93 — dead for a fractional
`test_size`, since sklearn already raised in every case it would catch —
then index `np.array(trial_ids)` by the two returned lists (the source
passes the returned trial *values* back in as indices, the train list on
line 95 first) and gather the rows of each selected trial. -/
def subjectSplit (t : ℚ) (info : Table) (s : String) :
    Except String (Table × Table) :=
  match sklearnSplit t (trialIdsOf info s) with
  | .error e => .error e
  | .ok p =>
    if p.1.isEmpty || p.2.isEmpty then .error (degenMsg s)
    else
      match npIndex (trialIdsOf info s) p.1 with
      | .error e => .error e
      | .ok trainTrialIds =>
        match npIndex (trialIdsOf info s) p.2 with
        | .error e => .error e
        | .ok testTrialIds =>
          .ok (gatherRows (subjectInfoOf info s) trainTrialIds,
            gatherRows (subjectInfoOf info s) testTrialIds)

/-- The subject loop of `train_test_split_cross_trial`: process the subjects
in order, concatenating each subject's train rows into the dataset-level
train table (and likewise for test); the first error aborts the loop. -/
def computeSubjects (t : ℚ) (info : Table) :
    List String → Except String (Table × Table)
  | [] => .ok ([], [])
  | s :: rest =>
    match subjectSplit t info s with
    | .error e => .error e
    | .ok (tr, te) =>
      match computeSubjects t info rest with
      | .error e => .error e
      | .ok (trs, tes) => .ok (tr ++ trs, te ++ tes)

/-- The compute phase of `train_test_split_cross_trial` (source lines 73-120):
enumerate the distinct subjects via `list(set(info['subject_id']))`, run the
per-subject loop, and fail like `pd.concat(None)` when there is no subject. -/
def computeSplitInfo (t : ℚ) (info : Table) : Except String (Table × Table) :=
  let subjects := pySetList (info.map Row.subject_id)
  if subjects.isEmpty then .error concatNoneMsg
  else computeSubjects t info subjects

/-- Model of `train_test_split_cross_trial(dataset, test_size, shuffle=False,
split_path)` acting on the split-directory state `fs`:

* directory absent: `os.makedirs` creates it, the compute phase runs, and on
  success `train.csv` / `test.csv` are written and immediately read back
  (round-trip identity), producing the two views; on a compute-phase error
  the directory remains, created and empty, and the error propagates;
* directory present: computation is skipped and the two files are read as-is
  (`pd.read_csv` failing when one is missing, `train.csv` first).

Each view is `copy(dataset)` with its `info` replaced, sharing `config`. -/
def train_test_split_cross_trial (t : ℚ) (ds : Dataset) (fs : SplitDir) :
    Except String (Dataset × Dataset) × SplitDir :=
  match fs with
  | .absent =>
    match computeSplitInfo t ds.info with
    | .error e => (.error e, .present none none)
    | .ok (tr, te) =>
      (.ok ({ ds with info := tr }, { ds with info := te }),
        .present (some tr) (some te))
  | .present otr ote =>
    match otr with
    | none => (.error (fileErr "train.csv"), fs)
    | some tr =>
      match ote with
      | none => (.error (fileErr "test.csv"), fs)
      | some te =>
        (.ok ({ ds with info := tr }, { ds with info := te }), fs)

/-- A pandas cell value, as `Subcategory` can meet it: a string or an integer
(the two value kinds the `criteria` column takes in the spec's scenarios). -/
inductive PyVal where
  | pstr (s : String)
  | pint (n : Int)
deriving DecidableEq

/-- Python's `f'{value}'` rendering of a cell value. -/
def pyValStr : PyVal → String
  | .pstr s => s
  | .pint n => toString n

/-- A pandas DataFrame for `Subcategory`: named columns and rows of cells. -/
structure DataFrame where
  columns : List String
  rows : List (List PyVal)
deriving DecidableEq

/-- `info[c]`: the values of column `c` (source accesses it only after
asserting that `c` is a column name). -/
def colValues (df : DataFrame) (c : String) : List PyVal :=
  df.rows.map (fun r => r.getD (df.columns.indexOf c) (.pstr ""))

/-- `info[info[c] == v]`: the sub-DataFrame of rows whose `c` column is `v`. -/
def filterCol (df : DataFrame) (c : String) (v : PyVal) : DataFrame :=
  ⟨df.columns,
    df.rows.filter (fun r => r.getD (df.columns.indexOf c) (.pstr "") == v)⟩

/-- Comma-separated rendering of a list, as in Python's `f'{list(...)}'`
(the quotes Python prints around strings are elided). -/
def pyJoin : List String → String
  | [] => ""
  | [x] => x
  | x :: y :: xs => x ++ ", " ++ pyJoin (y :: xs)

/-- The assertion message of `Subcategory.split_info_constructor`
(source lines 106-108). -/
def assertMsg (c : String) (cols : List String) : String :=
  "Unsupported criteria " ++ c ++
    ", please select one of the following options [" ++ pyJoin cols ++ "]."

/-- `Subcategory.split_info_constructor(info)` (source lines 105-115): assert
that `criteria` is a column name, else fail with a message listing the valid
columns; on success return the `<value>.csv` files it writes, one per
distinct value of the column, each holding exactly the matching rows. -/
def split_info_constructor (criteria : String) (df : DataFrame) :
    Except String (List (String × DataFrame)) :=
  if criteria ∈ df.columns then
    .ok ((pySetList (colValues df criteria)).map
      (fun v => (pyValStr v ++ ".csv", filterCol df criteria v)))
  else .error (assertMsg criteria df.columns)

/-- The capture of `re.findall(r'(.*).csv', f)[0]`: for a name ending in a
character followed by `csv` the greedy capture is the name without its last
four characters; otherwise `findall` is empty and `[0]` raises.  Computed on
`String.data` (the character list). -/
def csvStem (f : String) : Except String String :=
  if 4 ≤ f.data.length ∧ f.data.drop (f.data.length - 3) = ['c', 's', 'v']
  then .ok (String.mk (f.data.take (f.data.length - 4)))
  else .error "IndexError: list index out of range"

/-- Python's `int(s)` failure message (quotes elided). -/
def intErr (s : String) : String :=
  "ValueError: invalid literal for int() with base 10: " ++ s

/-- Accumulate a non-empty run of decimal digits; `none` on a non-digit. -/
def readDigits : List Char → Nat → Option Nat
  | [], acc => some acc
  | c :: cs, acc =>
    if '0' ≤ c ∧ c ≤ '9' then readDigits cs (acc * 10 + (c.toNat - 48))
    else none

/-- Python's `int(s)` on a literal: an optional sign followed by at least one
decimal digit; anything else raises `ValueError` (whitespace trimming and
digit-group underscores never arise for the file names at hand). -/
def pyIntParse (s : String) : Option Int :=
  match s.data with
  | [] => none
  | '-' :: cs =>
    match cs with
    | [] => none
    | _ => (readDigits cs 0).map fun n => -(n : Int)
  | '+' :: cs =>
    match cs with
    | [] => none
    | _ => (readDigits cs 0).map fun n => (n : Int)
  | cs => (readDigits cs 0).map fun n => (n : Int)

/-- `indice_file_to_fold_id` inside `Subcategory.category_list` (source lines
121-122): extract the filename stem and coerce it with `int(...)`. -/
def indice_file_to_fold_id (f : String) : Except String Int :=
  match csvStem f with
  | .error e => .error e
  | .ok s =>
    match pyIntParse s with
    | some n => .ok n
    | none => .error (intErr s)

/-- Insert into a sorted list of integers, ascending. -/
def insertSorted (x : Int) : List Int → List Int
  | [] => [x]
  | y :: ys => if x ≤ y then x :: y :: ys else y :: insertSorted x ys

/-- Python's `list.sort()` on integers: ascending order. -/
def sortInts (l : List Int) : List Int := l.foldr insertSorted []

/-- `Subcategory.category_list` (source lines 117-127): map every file name in
the split directory through `indice_file_to_fold_id` (failing at the first
name whose stem is not an integer literal), deduplicate, and sort. -/
def category_list (files : List String) : Except String (List Int) :=
  match files.mapM indice_file_to_fold_id with
  | .error e => .error e
  | .ok ids => .ok (sortInts (pySetList ids))

/-- The split directory of a `Subcategory`: `none` when it does not exist,
otherwise the list of `(filename, contents)` pairs it holds. -/
abbrev SubFS := Option (List (String × DataFrame))

/-- The read loop of `Subcategory.split` (source lines 149-156): for each
category, `pd.read_csv(f'{category}.csv')` and yield a view with that table
as metadata.  The yielded views are modelled by their metadata tables; each
is a shallow copy of the dataset sharing its other configuration. -/
def readCats (files : List (String × DataFrame)) :
    List Int → Except String (List DataFrame)
  | [] => .ok []
  | c :: cs =>
    match files.lookup (toString c ++ ".csv") with
    | none => .error (fileErr (toString c ++ ".csv"))
    | some t =>
      match readCats files cs with
      | .error e => .error e
      | .ok ts => .ok (t :: ts)

/-- The part of the generator body after the persistence gate: derive the
category list from the file names in the directory, then read the categories
back in sorted order.  It is the same code whether the files were freshly
written or reused. -/
def loadPhase (files : List (String × DataFrame)) :
    Except String (List DataFrame) :=
  match category_list (files.map Prod.fst) with
  | .error e => .error e
  | .ok cats => readCats files cats

/-- A suspended `Subcategory.split` generator: `split` has `yield` in its
body, so in CPython calling it only packages its arguments into a generator
object, running none of the body. -/
structure SubGen where
  criteria : String
  ds : DataFrame
deriving DecidableEq

/-- Calling `Subcategory.split(dataset)`: per CPython generator semantics this
allocates the generator object and performs no other action; in particular
the split-directory state `fs` is untouched. -/
def splitCall (criteria : String) (ds : DataFrame) (fs : SubFS) :
    SubGen × SubFS := (⟨criteria, ds⟩, fs)

/-- Iterating the generator returned by `Subcategory.split` (source lines
130-156), drained to its end: on the first step the persistence gate runs —
if the directory is absent, `os.makedirs` creates it and
`split_info_constructor` populates it (an assertion failure leaves the
directory created but empty) — then `category_list` is computed and the
category files are read and yielded in sorted order. -/
def genBody (g : SubGen) (fs : SubFS) :
    Except String (List DataFrame) × SubFS :=
  match fs with
  | none =>
    match split_info_constructor g.criteria g.ds with
    | .error e => (.error e, some [])
    | .ok files => (loadPhase files, some files)
  | some files => (loadPhase files, some files)

/-- Whether an `Except` value is a success. -/
def exceptOk : Except ε α → Bool
  | .ok _ => true
  | .error _ => false

/-- The metadata tables of a returned pair of views (`none` on an error):
used to state that two calls agree on view metadata. -/
def viewTables : Except String (Dataset × Dataset) → Option (Table × Table)
  | .ok (a, b) => some (a.info, b.info)
  | .error _ => none

instance [DecidableEq ε] [DecidableEq α] : DecidableEq (Except ε α) := fun a b =>
  match a, b with
  | .error x, .error y => decidable_of_iff (x = y) (by simp)
  | .ok x, .ok y => decidable_of_iff (x = y) (by simp)
  | .error _, .ok _ => .isFalse (by simp)
  | .ok _, .error _ => .isFalse (by simp)

/-! Concrete inputs used by the claim witnesses and counterexamples. -/

/-- One subject `A` with trials `0..4`, one row per trial (0-based trial ids,
the only shape the value-as-index slip in the source handles). -/
def dsGood : Dataset :=
  ⟨[⟨"A", 0, 0⟩, ⟨"A", 1, 1⟩, ⟨"A", 2, 2⟩, ⟨"A", 3, 3⟩, ⟨"A", 4, 4⟩], 7⟩

/-- Subjects `A` (trials 0, 1) and `B` (a single trial 0): with
`test_size=1/2`, subject `B`'s split is degenerate. -/
def dsB : Dataset := ⟨[⟨"A", 0, 0⟩, ⟨"A", 1, 1⟩, ⟨"B", 0, 2⟩], 0⟩

/-- A well-formed two-trial dataset used to probe reuse after a failure. -/
def dsA2 : Dataset := ⟨[⟨"A", 0, 0⟩, ⟨"A", 1, 1⟩], 0⟩

/-- Subjects `A` (trials 0, 1) and `B` (trials 0, 1, 2), two rows in trial 2. -/
def dsTwo : Dataset :=
  ⟨[⟨"A", 0, 0⟩, ⟨"A", 1, 1⟩, ⟨"B", 0, 2⟩, ⟨"B", 1, 3⟩, ⟨"B", 2, 4⟩,
    ⟨"B", 2, 5⟩], 1⟩

/-- The C8 scenario: subject `A` with trials `{1,2,3,4,5}` and subject `B`
with trials `{10,...,14}`, one row per trial, in encounter order. -/
def dsC8 : Dataset :=
  ⟨[⟨"A", 1, 0⟩, ⟨"A", 2, 1⟩, ⟨"A", 3, 2⟩, ⟨"A", 4, 3⟩, ⟨"A", 5, 4⟩,
    ⟨"B", 10, 5⟩, ⟨"B", 11, 6⟩, ⟨"B", 12, 7⟩, ⟨"B", 13, 8⟩, ⟨"B", 14, 9⟩], 0⟩

/-- The C3 scenario metadata: a `task` column whose values are the strings
`rest` and `motor`. -/
def dfC3 : DataFrame :=
  ⟨["subject_id", "trial_id", "task"],
   [[.pstr "A", .pint 0, .pstr "rest"], [.pstr "A", .pint 1, .pstr "motor"]]⟩

/-- Metadata whose `task` column holds the integers 3 and 1 (the only kind of
criteria value `category_list`'s int coercion survives). -/
def dfInt : DataFrame :=
  ⟨["subject_id", "trial_id", "task"],
   [[.pstr "A", .pint 0, .pint 3], [.pstr "A", .pint 1, .pint 1]]⟩

/-! Helper lemmas about the embedded primitives. -/

theorem mem_pySetAux [DecidableEq α] {a : α} :
    ∀ {l seen : List α}, a ∈ pySetAux seen l ↔ a ∈ l ∧ a ∉ seen := by
  intro l
  induction l with
  | nil => intro seen; simp [pySetAux]
  | cons x xs ih =>
    intro seen
    by_cases hx : x ∈ seen
    · rw [pySetAux, if_pos hx, ih]
      constructor
      · rintro ⟨h1, h2⟩
        exact ⟨List.mem_cons_of_mem _ h1, h2⟩
      · rintro ⟨h1, h2⟩
        rcases List.mem_cons.mp h1 with rfl | h1
        · exact absurd hx h2
        · exact ⟨h1, h2⟩
    · rw [pySetAux, if_neg hx, List.mem_cons]
      constructor
      · rintro (rfl | h1)
        · exact ⟨List.mem_cons_self _ _, hx⟩
        · rcases ih.mp h1 with ⟨h2, h3⟩
          exact ⟨List.mem_cons_of_mem _ h2,
            fun hs => h3 (List.mem_cons_of_mem _ hs)⟩
      · rintro ⟨h1, h2⟩
        rcases List.mem_cons.mp h1 with rfl | h1
        · exact Or.inl rfl
        · by_cases hax : a = x
          · exact Or.inl hax
          · refine Or.inr (ih.mpr ⟨h1, fun hs => ?_⟩)
            rcases List.mem_cons.mp hs with h | h
            · exact hax h
            · exact h2 h

theorem mem_pySetList [DecidableEq α] {a : α} {l : List α} :
    a ∈ pySetList l ↔ a ∈ l := by
  rw [pySetList, mem_pySetAux]
  simp

theorem nodup_pySetAux [DecidableEq α] :
    ∀ (l seen : List α), (pySetAux seen l).Nodup := by
  intro l
  induction l with
  | nil => intro seen; simp [pySetAux]
  | cons x xs ih =>
    intro seen
    by_cases hx : x ∈ seen
    · rw [pySetAux, if_pos hx]
      exact ih seen
    · rw [pySetAux, if_neg hx]
      refine List.nodup_cons.mpr ⟨fun hmem => ?_, ih _⟩
      exact (mem_pySetAux.mp hmem).2 (List.mem_cons_self x _)

theorem nodup_pySetList [DecidableEq α] (l : List α) :
    (pySetList l).Nodup := nodup_pySetAux l []

theorem npIndex_ok_iff {arr : List Nat} :
    ∀ {idxs m : List Nat},
      npIndex arr idxs = .ok m ↔
        (∀ i ∈ idxs, i < arr.length) ∧
          m = idxs.map fun i => (arr[i]?).getD 0 := by
  intro idxs
  induction idxs with
  | nil =>
    intro m
    constructor
    · intro h
      injection h with h
      exact ⟨by simp, h.symm⟩
    · rintro ⟨-, rfl⟩
      rfl
  | cons i is ih =>
    intro m
    rw [npIndex]
    cases hg : arr[i]? with
    | none =>
      rw [List.getElem?_eq_none_iff] at hg
      constructor
      · intro h
        cases h
      · rintro ⟨hall, -⟩
        exact absurd (hall i (List.mem_cons_self _ _)) (Nat.not_lt.mpr hg)
    | some v =>
      have hi : i < arr.length := by
        by_contra hlt
        rw [List.getElem?_eq_none (Nat.le_of_not_lt hlt)] at hg
        cases hg
      cases hr : npIndex arr is with
      | error e =>
        constructor
        · intro h
          cases h
        · rintro ⟨hall, -⟩
          have := ih.mpr
            ⟨fun j hj => hall j (List.mem_cons_of_mem _ hj), rfl⟩
          rw [hr] at this
          cases this
      | ok vs =>
        obtain ⟨hall, hvs⟩ := ih.mp hr
        constructor
        · intro h
          injection h with h
          subst h
          refine ⟨fun j hj => ?_, ?_⟩
          · rcases List.mem_cons.mp hj with rfl | hj
            · exact hi
            · exact hall j hj
          · rw [List.map_cons, ← hvs, hg]
            rfl
        · rintro ⟨-, rfl⟩
          rw [List.map_cons, ← hvs, hg]
          rfl

theorem npIndex_append {arr xs ys a b : List Nat}
    (hx : npIndex arr xs = .ok a) (hy : npIndex arr ys = .ok b) :
    npIndex arr (xs ++ ys) = .ok (a ++ b) := by
  obtain ⟨hax, rfl⟩ := npIndex_ok_iff.mp hx
  obtain ⟨hay, rfl⟩ := npIndex_ok_iff.mp hy
  refine npIndex_ok_iff.mpr ⟨?_, by rw [List.map_append]⟩
  intro i hi
  rcases List.mem_append.mp hi with h | h
  · exact hax i h
  · exact hay i h

theorem map_getElem?_range :
    ∀ arr : List Nat,
      ((List.range arr.length).map fun i => (arr[i]?).getD 0) = arr := by
  intro arr
  induction arr with
  | nil => simp
  | cons x xs ih =>
    rw [List.length_cons, List.range_succ_eq_map, List.map_cons, List.map_map]
    congr 1
    · simp
    · calc (List.range xs.length).map
            ((fun i => ((x :: xs)[i]?).getD 0) ∘ Nat.succ)
          = (List.range xs.length).map fun i => (xs[i]?).getD 0 := by
            apply List.map_congr_left
            intro a _
            simp
        _ = xs := ih

theorem nodup_lt_perm_range {l : List Nat} (hnd : l.Nodup)
    (hlt : ∀ x ∈ l, x < l.length) : l.Perm (List.range l.length) := by
  apply List.perm_of_nodup_nodup_toFinset_eq hnd (List.nodup_range _)
  apply Finset.eq_of_subset_of_card_le
  · intro a ha
    rw [List.mem_toFinset] at ha
    rw [List.mem_toFinset, List.mem_range]
    exact hlt a ha
  · rw [List.toFinset_card_of_nodup hnd,
      List.toFinset_card_of_nodup (List.nodup_range _), List.length_range]

theorem npIndex_self_perm {l m : List Nat} (hnd : l.Nodup)
    (h : npIndex l l = .ok m) : m.Perm l := by
  obtain ⟨hlt, rfl⟩ := npIndex_ok_iff.mp h
  have h1 := (nodup_lt_perm_range hnd hlt).map fun i => (l[i]?).getD 0
  rw [map_getElem?_range] at h1
  exact h1

theorem flatMap_filter_perm [DecidableEq β] (k : α → β) :
    ∀ (keys : List β) (l : List α), keys.Nodup → (∀ x ∈ l, k x ∈ keys) →
      (keys.flatMap fun v => l.filter fun x => k x == v).Perm l := by
  intro keys
  induction keys with
  | nil =>
    intro l _ hcov
    cases l with
    | nil => simp
    | cons x xs => exact absurd (hcov x (List.mem_cons_self _ _)) (by simp)
  | cons v rest ih =>
    intro l hnd hcov
    have hvrest : v ∉ rest := (List.nodup_cons.mp hnd).1
    have hndrest : rest.Nodup := (List.nodup_cons.mp hnd).2
    rw [List.flatMap_cons]
    have htail : (rest.flatMap fun u => l.filter fun x => k x == u)
        = rest.flatMap fun u =>
            (l.filter fun x => !(k x == v)).filter fun x => k x == u := by
      apply List.flatMap_congr
      intro u hu
      rw [List.filter_filter]
      apply List.filter_congr
      intro x _
      by_cases hxu : k x = u
      · have huv : u ≠ v := fun hform => hvrest (hform ▸ hu)
        simp [hxu, huv]
      · simp [hxu]
    rw [htail]
    have hcov' : ∀ x ∈ l.filter fun x => !(k x == v), k x ∈ rest := by
      intro x hx
      rw [List.mem_filter] at hx
      rcases List.mem_cons.mp (hcov x hx.1) with h | h
      · rw [h] at hx
        simp at hx
      · exact h
    exact ((ih _ hndrest hcov').append_left _).trans
      (List.filter_append_perm _ l)

theorem sklearnSplit_ok_append {t : ℚ} {xs : List Nat}
    {p : List Nat × List Nat} (h : sklearnSplit t xs = .ok p) :
    p.1 ++ p.2 = xs := by
  simp only [sklearnSplit] at h
  split at h
  · cases h
  · split at h
    · cases h
    · injection h with h
      subst h
      exact List.take_append_drop _ _

theorem subjectSplit_ok_inv {t : ℚ} {info : Table} {s : String} {tr te : Table}
    (h : subjectSplit t info s = .ok (tr, te)) :
    ∃ ia ib a b : List Nat,
      sklearnSplit t (trialIdsOf info s) = .ok (ia, ib) ∧
      npIndex (trialIdsOf info s) ia = .ok a ∧
      npIndex (trialIdsOf info s) ib = .ok b ∧
      tr = gatherRows (subjectInfoOf info s) a ∧
      te = gatherRows (subjectInfoOf info s) b := by
  rw [subjectSplit] at h
  split at h
  · cases h
  · rename_i p hsk
    split at h
    · cases h
    · cases h1 : npIndex (trialIdsOf info s) p.1 with
      | error e => rw [h1] at h; cases h
      | ok a =>
        rw [h1] at h
        cases h2 : npIndex (trialIdsOf info s) p.2 with
        | error e => rw [h2] at h; cases h
        | ok b =>
          rw [h2] at h
          injection h with h
          injection h with h3 h4
          exact ⟨p.1, p.2, a, b, hsk, h1, h2, h3.symm, h4.symm⟩

theorem subjectSplit_trial_perm {t : ℚ} {info : Table} {s : String}
    {ia ib a b : List Nat}
    (hsk : sklearnSplit t (trialIdsOf info s) = .ok (ia, ib))
    (h1 : npIndex (trialIdsOf info s) ia = .ok a)
    (h2 : npIndex (trialIdsOf info s) ib = .ok b) :
    (a ++ b).Perm (trialIdsOf info s) := by
  have hself := npIndex_append h1 h2
  rw [show ia ++ ib = trialIdsOf info s from sklearnSplit_ok_append hsk]
    at hself
  exact npIndex_self_perm (nodup_pySetList _) hself

theorem subjectSplit_ok_perm {t : ℚ} {info : Table} {s : String} {tr te : Table}
    (h : subjectSplit t info s = .ok (tr, te)) :
    (tr ++ te).Perm (subjectInfoOf info s) := by
  obtain ⟨ia, ib, a, b, hsk, h1, h2, rfl, rfl⟩ := subjectSplit_ok_inv h
  have hab := subjectSplit_trial_perm hsk h1 h2
  simp only [gatherRows]
  rw [← List.flatMap_append]
  refine (hab.flatMap_right _).trans ?_
  exact flatMap_filter_perm Row.trial_id _ _ (nodup_pySetList _)
    (fun r hr => mem_pySetList.mpr (List.mem_map_of_mem _ hr))

theorem sklearnSplit_empty_train {t : ℚ} {xs : List Nat}
    (hv1 : 0 < t.num) (hv2 : t.num < (t.den : Int))
    (hd : xs.length - nTestOf t xs.length = 0) :
    sklearnSplit t xs = .error (sklearnEmptyTrainMsg xs.length t) := by
  simp only [sklearnSplit]
  rw [if_neg, if_pos hd]
  rintro (h | h)
  · exact absurd hv1 (Int.not_lt.mpr h)
  · exact absurd hv2 (Int.not_lt.mpr h)

theorem subjectSplit_empty_train {t : ℚ} {info : Table} {s : String}
    (hv1 : 0 < t.num) (hv2 : t.num < (t.den : Int))
    (hd : (trialIdsOf info s).length
        - nTestOf t (trialIdsOf info s).length = 0) :
    subjectSplit t info s
      = .error (sklearnEmptyTrainMsg (trialIdsOf info s).length t) := by
  rw [subjectSplit, sklearnSplit_empty_train hv1 hv2 hd]

theorem subjectSplit_err_of_empty_train {t : ℚ} {info : Table} {s : String}
    (hd : (trialIdsOf info s).length
        - nTestOf t (trialIdsOf info s).length = 0) :
    ∃ e, subjectSplit t info s = .error e := by
  by_cases hv : t.num ≤ 0 ∨ (t.den : Int) ≤ t.num
  · refine ⟨sklearnBadTestSizeMsg t, ?_⟩
    rw [subjectSplit]
    simp only [sklearnSplit]
    rw [if_pos hv]
  · rw [not_or, Int.not_le, Int.not_le] at hv
    exact ⟨_, subjectSplit_empty_train hv.1 hv.2 hd⟩

theorem subjectSplit_ok_mem {t : ℚ} {info : Table} {s : String} {tr te : Table}
    (h : subjectSplit t info s = .ok (tr, te)) :
    ∀ r, (r ∈ tr ∨ r ∈ te) → r.subject_id = s ∧ r ∈ info := by
  obtain ⟨ia, ib, a, b, hsk, h1, h2, rfl, rfl⟩ := subjectSplit_ok_inv h
  intro r hr
  have hsi : r ∈ subjectInfoOf info s := by
    rcases hr with hr | hr <;>
    · rw [gatherRows, List.mem_flatMap] at hr
      obtain ⟨tid, _, hrf⟩ := hr
      exact (List.mem_filter.mp hrf).1
  rw [subjectInfoOf, List.mem_filter] at hsi
  exact ⟨by simpa using hsi.2, hsi.1⟩

theorem subjectSplit_ok_atomic {t : ℚ} {info : Table} {s : String}
    {tr te : Table} (h : subjectSplit t info s = .ok (tr, te)) (tid : Nat) :
    (∀ r ∈ info, r.subject_id = s → r.trial_id = tid → r ∈ tr ∧ r ∉ te)
    ∨ (∀ r ∈ info, r.subject_id = s → r.trial_id = tid → r ∈ te ∧ r ∉ tr) := by
  obtain ⟨ia, ib, a, b, hsk, h1, h2, rfl, rfl⟩ := subjectSplit_ok_inv h
  have hab := subjectSplit_trial_perm hsk h1 h2
  have hnd : (a ++ b).Nodup := hab.nodup_iff.mpr (nodup_pySetList _)
  obtain ⟨-, -, hdisj⟩ := List.nodup_append.mp hnd
  by_cases hex : ∃ r ∈ info, r.subject_id = s ∧ r.trial_id = tid
  case neg =>
    left
    intro r hr hrs hrt
    exact absurd ⟨r, hr, hrs, hrt⟩ hex
  case pos =>
    obtain ⟨r0, hr0, hs0, ht0⟩ := hex
    have hmem : tid ∈ trialIdsOf info s := by
      rw [trialIdsOf, mem_pySetList, ← ht0]
      apply List.mem_map_of_mem
      rw [subjectInfoOf, List.mem_filter]
      exact ⟨hr0, by simp [hs0]⟩
    rcases List.mem_append.mp (hab.mem_iff.mpr hmem) with hta | htb
    · left
      intro r hr hrs hrt
      have hrsi : r ∈ subjectInfoOf info s := by
        rw [subjectInfoOf, List.mem_filter]
        exact ⟨hr, by simp [hrs]⟩
      constructor
      · rw [gatherRows, List.mem_flatMap]
        exact ⟨tid, hta, List.mem_filter.mpr ⟨hrsi, by simp [hrt]⟩⟩
      · intro hrte
        rw [gatherRows, List.mem_flatMap] at hrte
        obtain ⟨u, hub, hru⟩ := hrte
        have hru' : r.trial_id = u := by
          simpa using (List.mem_filter.mp hru).2
        have htu : tid = u := hrt.symm.trans hru'
        refine hdisj hta ?_
        rw [htu]
        exact hub
    · right
      intro r hr hrs hrt
      have hrsi : r ∈ subjectInfoOf info s := by
        rw [subjectInfoOf, List.mem_filter]
        exact ⟨hr, by simp [hrs]⟩
      constructor
      · rw [gatherRows, List.mem_flatMap]
        exact ⟨tid, htb, List.mem_filter.mpr ⟨hrsi, by simp [hrt]⟩⟩
      · intro hrtr
        rw [gatherRows, List.mem_flatMap] at hrtr
        obtain ⟨u, hua, hru⟩ := hrtr
        have hru' : r.trial_id = u := by
          simpa using (List.mem_filter.mp hru).2
        have htu : tid = u := hrt.symm.trans hru'
        refine hdisj ?_ htb
        rw [htu]
        exact hua

theorem middle_swap_perm (a b c d : List α) :
    ((a ++ b) ++ (c ++ d)).Perm ((a ++ c) ++ (b ++ d)) := by
  rw [List.append_assoc, List.append_assoc]
  apply List.Perm.append_left
  rw [← List.append_assoc, ← List.append_assoc]
  exact List.Perm.append_right d List.perm_append_comm

theorem computeSubjects_ok_mem {t : ℚ} {info : Table} :
    ∀ {subjects : List String} {tr te : Table},
      computeSubjects t info subjects = .ok (tr, te) →
      ∀ r, (r ∈ tr ∨ r ∈ te) → r.subject_id ∈ subjects := by
  intro subjects
  induction subjects with
  | nil =>
    intro tr te h r hr
    rw [computeSubjects] at h
    injection h with h
    injection h with h3 h4
    subst h3
    subst h4
    rcases hr with hr | hr <;> cases hr
  | cons s rest ih =>
    intro tr te h r hr
    rw [computeSubjects] at h
    cases h1 : subjectSplit t info s with
    | error e => rw [h1] at h; cases h
    | ok p =>
      obtain ⟨tr0, te0⟩ := p
      rw [h1] at h
      cases h2 : computeSubjects t info rest with
      | error e => rw [h2] at h; cases h
      | ok q =>
        obtain ⟨trs, tes⟩ := q
        rw [h2] at h
        injection h with h
        injection h with h3 h4
        subst h3
        subst h4
        rcases hr with hr | hr
        · rcases List.mem_append.mp hr with hr | hr
          · rw [(subjectSplit_ok_mem h1 r (Or.inl hr)).1]
            exact List.mem_cons_self _ _
          · exact List.mem_cons_of_mem _ (ih h2 r (Or.inl hr))
        · rcases List.mem_append.mp hr with hr | hr
          · rw [(subjectSplit_ok_mem h1 r (Or.inr hr)).1]
            exact List.mem_cons_self _ _
          · exact List.mem_cons_of_mem _ (ih h2 r (Or.inr hr))

theorem computeSubjects_ok_perm {t : ℚ} {info : Table} :
    ∀ {subjects : List String} {tr te : Table},
      computeSubjects t info subjects = .ok (tr, te) →
      (tr ++ te).Perm (subjects.flatMap fun s => subjectInfoOf info s) := by
  intro subjects
  induction subjects with
  | nil =>
    intro tr te h
    rw [computeSubjects] at h
    injection h with h
    injection h with h3 h4
    subst h3
    subst h4
    simp
  | cons s rest ih =>
    intro tr te h
    rw [computeSubjects] at h
    cases h1 : subjectSplit t info s with
    | error e => rw [h1] at h; cases h
    | ok p =>
      obtain ⟨tr0, te0⟩ := p
      rw [h1] at h
      cases h2 : computeSubjects t info rest with
      | error e => rw [h2] at h; cases h
      | ok q =>
        obtain ⟨trs, tes⟩ := q
        rw [h2] at h
        injection h with h
        injection h with h3 h4
        subst h3
        subst h4
        rw [List.flatMap_cons]
        exact (middle_swap_perm tr0 trs te0 tes).trans
          ((subjectSplit_ok_perm h1).append (ih h2))

theorem computeSubjects_ok_atomic {t : ℚ} {info : Table} :
    ∀ {subjects : List String} {tr te : Table}, subjects.Nodup →
      computeSubjects t info subjects = .ok (tr, te) →
      ∀ s ∈ subjects, ∀ tid : Nat,
        (∀ r ∈ info, r.subject_id = s → r.trial_id = tid → r ∈ tr ∧ r ∉ te)
        ∨ (∀ r ∈ info, r.subject_id = s → r.trial_id = tid → r ∈ te ∧ r ∉ tr) := by
  intro subjects
  induction subjects with
  | nil =>
    intro tr te _ _ s hs
    cases hs
  | cons s0 rest ih =>
    intro tr te hnd h s hs tid
    rw [computeSubjects] at h
    cases h1 : subjectSplit t info s0 with
    | error e => rw [h1] at h; cases h
    | ok p =>
      obtain ⟨tr0, te0⟩ := p
      rw [h1] at h
      cases h2 : computeSubjects t info rest with
      | error e => rw [h2] at h; cases h
      | ok q =>
        obtain ⟨trs, tes⟩ := q
        rw [h2] at h
        injection h with h
        injection h with h3 h4
        subst h3
        subst h4
        rcases List.mem_cons.mp hs with rfl | hs'
        · rcases subjectSplit_ok_atomic h1 tid with hca | hca
          · left
            intro r hr hrs hrt
            obtain ⟨hin, hnotin⟩ := hca r hr hrs hrt
            refine ⟨List.mem_append.mpr (Or.inl hin), fun hmem => ?_⟩
            rcases List.mem_append.mp hmem with hm | hm
            · exact hnotin hm
            · have := computeSubjects_ok_mem h2 r (Or.inr hm)
              rw [hrs] at this
              exact (List.nodup_cons.mp hnd).1 this
          · right
            intro r hr hrs hrt
            obtain ⟨hin, hnotin⟩ := hca r hr hrs hrt
            refine ⟨List.mem_append.mpr (Or.inl hin), fun hmem => ?_⟩
            rcases List.mem_append.mp hmem with hm | hm
            · exact hnotin hm
            · have := computeSubjects_ok_mem h2 r (Or.inl hm)
              rw [hrs] at this
              exact (List.nodup_cons.mp hnd).1 this
        · have hs0ne : s ≠ s0 :=
            fun hform => (List.nodup_cons.mp hnd).1 (hform ▸ hs')
          rcases ih (List.nodup_cons.mp hnd).2 h2 s hs' tid with hca | hca
          · left
            intro r hr hrs hrt
            obtain ⟨hin, hnotin⟩ := hca r hr hrs hrt
            refine ⟨List.mem_append.mpr (Or.inr hin), fun hmem => ?_⟩
            rcases List.mem_append.mp hmem with hm | hm
            · exact hs0ne (hrs.symm.trans
                (subjectSplit_ok_mem h1 r (Or.inr hm)).1)
            · exact hnotin hm
          · right
            intro r hr hrs hrt
            obtain ⟨hin, hnotin⟩ := hca r hr hrs hrt
            refine ⟨List.mem_append.mpr (Or.inr hin), fun hmem => ?_⟩
            rcases List.mem_append.mp hmem with hm | hm
            · exact hs0ne (hrs.symm.trans
                (subjectSplit_ok_mem h1 r (Or.inl hm)).1)
            · exact hnotin hm

theorem computeSubjects_error {t : ℚ} {info : Table} {s : String} {e : String} :
    ∀ {pre : List String} (post : List String),
      (∀ s' ∈ pre, exceptOk (subjectSplit t info s') = true) →
      subjectSplit t info s = .error e →
      computeSubjects t info (pre ++ s :: post) = .error e := by
  intro pre
  induction pre with
  | nil =>
    intro post _ hserr
    rw [List.nil_append, computeSubjects, hserr]
  | cons p pre' ih =>
    intro post hpre hserr
    have hp := hpre p (List.mem_cons_self _ _)
    rw [List.cons_append, computeSubjects]
    cases h1 : subjectSplit t info p with
    | error e' =>
      rw [h1] at hp
      simp [exceptOk] at hp
    | ok q =>
      obtain ⟨tr0, te0⟩ := q
      rw [ih post (fun s' hs' => hpre s' (List.mem_cons_of_mem _ hs')) hserr]

theorem computeSubjects_error_of_mem {t : ℚ} {info : Table} {s e : String}
    (hserr : subjectSplit t info s = .error e) :
    ∀ {l : List String}, s ∈ l →
      ∃ e', computeSubjects t info l = .error e' := by
  intro l
  induction l with
  | nil =>
    intro h
    cases h
  | cons p rest ih =>
    intro h
    rw [computeSubjects]
    cases h1 : subjectSplit t info p with
    | error e1 => exact ⟨e1, rfl⟩
    | ok q =>
      obtain ⟨tr0, te0⟩ := q
      rcases List.mem_cons.mp h with rfl | h'
      · rw [hserr] at h1
        cases h1
      · obtain ⟨e', he'⟩ := ih h'
        rw [he']
        exact ⟨e', rfl⟩

theorem computeSplitInfo_ok_perm {t : ℚ} {info : Table} {tr te : Table}
    (h : computeSplitInfo t info = .ok (tr, te)) : (tr ++ te).Perm info := by
  simp only [computeSplitInfo] at h
  split at h
  · cases h
  · refine (computeSubjects_ok_perm h).trans ?_
    exact flatMap_filter_perm Row.subject_id _ info (nodup_pySetList _)
      (fun r hr => mem_pySetList.mpr (List.mem_map_of_mem _ hr))

theorem computeSplitInfo_ok_atomic {t : ℚ} {info : Table} {tr te : Table}
    (h : computeSplitInfo t info = .ok (tr, te)) (s : String) (tid : Nat) :
    (∀ r ∈ info, r.subject_id = s → r.trial_id = tid → r ∈ tr ∧ r ∉ te)
    ∨ (∀ r ∈ info, r.subject_id = s → r.trial_id = tid → r ∈ te ∧ r ∉ tr) := by
  simp only [computeSplitInfo] at h
  split at h
  · cases h
  · by_cases hs : s ∈ pySetList (info.map Row.subject_id)
    · exact computeSubjects_ok_atomic (nodup_pySetList _) h s hs tid
    · left
      intro r hr hrs _
      exact absurd
        (mem_pySetList.mpr (hrs ▸ List.mem_map_of_mem Row.subject_id hr)) hs

theorem cross_absent_ok_inv {t : ℚ} {ds vtr vte : Dataset} {fs' : SplitDir}
    (h : train_test_split_cross_trial t ds .absent = (.ok (vtr, vte), fs')) :
    computeSplitInfo t ds.info = .ok (vtr.info, vte.info) ∧
    vtr.config = ds.config ∧ vte.config = ds.config ∧
    fs' = .present (some vtr.info) (some vte.info) := by
  rw [train_test_split_cross_trial] at h
  cases hc : computeSplitInfo t ds.info with
  | error e =>
    rw [hc] at h
    injection h with h1 h2
    cases h1
  | ok p =>
    obtain ⟨tr, te⟩ := p
    rw [hc] at h
    injection h with h1 h2
    injection h1 with h1
    injection h1 with h3 h4
    subst h3
    subst h4
    exact ⟨rfl, rfl, rfl, h2.symm⟩

/-- C1: on a fresh split path, when `train_test_split_cross_trial` returns
without error, the rows of the returned train and test views' metadata are
exactly the rows of the input dataset's metadata — a permutation, hence equal
as a set, with no row duplicated or dropped — for any test size. -/
theorem C1_coverage {t : ℚ} {ds vtr vte : Dataset} {fs' : SplitDir}
    (h : train_test_split_cross_trial t ds .absent = (.ok (vtr, vte), fs')) :
    (vtr.info ++ vte.info).Perm ds.info :=
  computeSplitInfo_ok_perm (cross_absent_ok_inv h).1

/-- Witness for C1 at `dsGood` with `test_size = 1/5`. -/
theorem C1_coverage_witness :
    ((Dataset.mk [⟨"A", 0, 0⟩, ⟨"A", 1, 1⟩, ⟨"A", 2, 2⟩, ⟨"A", 3, 3⟩] 7).info
      ++ (Dataset.mk [⟨"A", 4, 4⟩] 7).info).Perm dsGood.info :=
  @C1_coverage (mkRat 1 5) dsGood
    (Dataset.mk [⟨"A", 0, 0⟩, ⟨"A", 1, 1⟩, ⟨"A", 2, 2⟩, ⟨"A", 3, 3⟩] 7)
    (Dataset.mk [⟨"A", 4, 4⟩] 7)
    (.present (some [⟨"A", 0, 0⟩, ⟨"A", 1, 1⟩, ⟨"A", 2, 2⟩, ⟨"A", 3, 3⟩])
      (some [⟨"A", 4, 4⟩]))
    (by decide)

/-- C2: on a fresh split path, when `train_test_split_cross_trial` returns
without error, all metadata rows of a given subject and trial land entirely
in the train view or entirely in the test view — never divided. -/
theorem C2_trial_atomicity {t : ℚ} {ds vtr vte : Dataset} {fs' : SplitDir}
    (h : train_test_split_cross_trial t ds .absent = (.ok (vtr, vte), fs'))
    (s : String) (tid : Nat) :
    (∀ r ∈ ds.info, r.subject_id = s → r.trial_id = tid →
        r ∈ vtr.info ∧ r ∉ vte.info)
    ∨ (∀ r ∈ ds.info, r.subject_id = s → r.trial_id = tid →
        r ∈ vte.info ∧ r ∉ vtr.info) :=
  computeSplitInfo_ok_atomic (cross_absent_ok_inv h).1 s tid

/-- Witness for C2 at `dsTwo` with `test_size = 1/2`, subject `B`, trial 2. -/
theorem C2_trial_atomicity_witness :
    (∀ r ∈ dsTwo.info, r.subject_id = "B" → r.trial_id = 2 →
        r ∈ (Dataset.mk [⟨"A", 0, 0⟩, ⟨"B", 0, 2⟩] 1).info
          ∧ r ∉ (Dataset.mk [⟨"A", 1, 1⟩, ⟨"B", 1, 3⟩, ⟨"B", 2, 4⟩,
              ⟨"B", 2, 5⟩] 1).info)
    ∨ (∀ r ∈ dsTwo.info, r.subject_id = "B" → r.trial_id = 2 →
        r ∈ (Dataset.mk [⟨"A", 1, 1⟩, ⟨"B", 1, 3⟩, ⟨"B", 2, 4⟩,
              ⟨"B", 2, 5⟩] 1).info
          ∧ r ∉ (Dataset.mk [⟨"A", 0, 0⟩, ⟨"B", 0, 2⟩] 1).info) :=
  @C2_trial_atomicity (mkRat 1 2) dsTwo
    (Dataset.mk [⟨"A", 0, 0⟩, ⟨"B", 0, 2⟩] 1)
    (Dataset.mk [⟨"A", 1, 1⟩, ⟨"B", 1, 3⟩, ⟨"B", 2, 4⟩, ⟨"B", 2, 5⟩] 1)
    (.present (some [⟨"A", 0, 0⟩, ⟨"B", 0, 2⟩])
      (some [⟨"A", 1, 1⟩, ⟨"B", 1, 3⟩, ⟨"B", 2, 4⟩, ⟨"B", 2, 5⟩]))
    (by decide) "B" 2

/-- C4 counterexample: subject `B` of `dsB` has exactly one trial, so with
`test_size = 1/2` its split is degenerate — but the call does not fail with
the repo's `ValueError` naming the subject: sklearn's own
`_validate_shuffle_split` raises its empty-train-set `ValueError` inside
`train_test_split` (line 83) before the repo's subject check (lines 89-93)
runs, and that message reports only `n_samples` and `test_size`: it differs
from the repo's subject message and does not even contain the character `B`. -/
theorem C4_counterexample :
    train_test_split_cross_trial (mkRat 1 2) dsB .absent
      = (.error (sklearnEmptyTrainMsg 1 (mkRat 1 2)), .present none none)
    ∧ sklearnEmptyTrainMsg 1 (mkRat 1 2) ≠ degenMsg "B"
    ∧ 'B' ∉ (sklearnEmptyTrainMsg 1 (mkRat 1 2)).data := by decide

/-- C4 as amended: when subject `s`'s trial split yields an empty train
group, the call on a fresh split path always fails and writes no partition
file (only the just-created, empty split directory remains); and when
`test_size` is a valid fraction and every subject processed before `s`
splits without error, the failure is sklearn's empty-train-set `ValueError`,
raised inside `train_test_split` and reporting only `n_samples` and
`test_size` — the repo's subject-naming check on lines 89-93 is dead code
and no message identifying the offending subject is ever produced. -/
theorem C4_amended {t : ℚ} {ds : Dataset} {s : String}
    {pre post : List String}
    (hsub : pySetList (ds.info.map Row.subject_id) = pre ++ s :: post)
    (hdeg : (trialIdsOf ds.info s).length
        - nTestOf t (trialIdsOf ds.info s).length = 0) :
    (∃ e, train_test_split_cross_trial t ds .absent
      = (.error e, .present none none))
    ∧ ((∀ s' ∈ pre, exceptOk (subjectSplit t ds.info s') = true) →
        0 < t.num → t.num < (t.den : Int) →
      train_test_split_cross_trial t ds .absent
        = (.error (sklearnEmptyTrainMsg (trialIdsOf ds.info s).length t),
          .present none none)) := by
  constructor
  · obtain ⟨e, he⟩ := subjectSplit_err_of_empty_train hdeg
    obtain ⟨e', he'⟩ := computeSubjects_error_of_mem he
      (show s ∈ pre ++ s :: post by simp)
    have hci : computeSplitInfo t ds.info = .error e' := by
      simp only [computeSplitInfo]
      rw [hsub]
      cases pre with
      | nil => simpa using he'
      | cons p pre' => simpa using he'
    exact ⟨e', by rw [train_test_split_cross_trial, hci]⟩
  · intro hpre hv1 hv2
    have herr : computeSubjects t ds.info (pre ++ s :: post)
        = .error (sklearnEmptyTrainMsg (trialIdsOf ds.info s).length t) :=
      computeSubjects_error post hpre (subjectSplit_empty_train hv1 hv2 hdeg)
    have hci : computeSplitInfo t ds.info
        = .error (sklearnEmptyTrainMsg (trialIdsOf ds.info s).length t) := by
      simp only [computeSplitInfo]
      rw [hsub]
      cases pre with
      | nil => simpa using herr
      | cons p pre' => simpa using herr
    rw [train_test_split_cross_trial, hci]

/-- Witness for C4's amended statement at `dsB` with `test_size = 1/2`:
subject `B` has a single trial, so its train group is empty. -/
theorem C4_amended_witness :
    (∃ e, train_test_split_cross_trial (mkRat 1 2) dsB .absent
      = (.error e, .present none none))
    ∧ train_test_split_cross_trial (mkRat 1 2) dsB .absent
        = (.error (sklearnEmptyTrainMsg 1 (mkRat 1 2)), .present none none) :=
  have h := @C4_amended (mkRat 1 2) dsB "B" ["A"] [] (by decide) (by decide)
  ⟨h.1, h.2 (by decide) (by decide) (by decide)⟩

/-- C8 (code bug): on the spec's scenario — subject `A` with trials
`{1,2,3,4,5}`, subject `B` with trials `{10,...,14}`, `test_size = 0.2`,
`shuffle = False` — the source does not produce the claimed
`A: train=[1,2,3,4], test=[5]; B: train=[10,11,12,13], test=[14]` split: it
feeds the trial values returned by sklearn back into `np.array(trial_ids)`
as indices, so indexing with trial id 5 into subject `A`'s 5-element array
raises `IndexError` and the call aborts with no file written. -/
theorem C8_scenario_index_error :
    train_test_split_cross_trial (mkRat 1 5) dsC8 .absent
      = (.error (indexErr 5 5), .present none none) := by decide

/-- C9: when the split directory already exists with both partition files,
the returned views' metadata is exactly the on-disk tables, the state is
unchanged, no error is raised, and the view metadata is identical for any
two input datasets — the input dataset's own metadata is never consulted. -/
theorem C9_stale_reuse (t : ℚ) (ds ds2 : Dataset) (tr te : Table) :
    train_test_split_cross_trial t ds (.present (some tr) (some te))
      = (.ok ({ ds with info := tr }, { ds with info := te }),
          .present (some tr) (some te))
    ∧ viewTables
        (train_test_split_cross_trial t ds (.present (some tr) (some te))).1
      = some (tr, te)
    ∧ viewTables
        (train_test_split_cross_trial t ds (.present (some tr) (some te))).1
      = viewTables
        (train_test_split_cross_trial t ds2 (.present (some tr) (some te))).1 :=
  ⟨rfl, rfl, rfl⟩

theorem Dataset.ext' {a b : Dataset} (h1 : a.info = b.info)
    (h2 : a.config = b.config) : a = b := by
  cases a
  cases b
  cases h1
  cases h2
  rfl

theorem pyJoin_sub : ∀ {cols : List String} {col : String}, col ∈ cols →
    col.data <:+: (pyJoin cols).data := by
  intro cols
  induction cols with
  | nil =>
    intro col h
    cases h
  | cons x xs ih =>
    intro col h
    rcases List.mem_cons.mp h with rfl | h'
    · cases xs with
      | nil => exact List.infix_rfl
      | cons y ys =>
        show col.data <:+: ((col ++ ", ") ++ pyJoin (y :: ys)).data
        rw [String.data_append, String.data_append, List.append_assoc]
        exact (List.prefix_append _ _).isInfix
    · cases xs with
      | nil => cases h'
      | cons y ys =>
        refine (ih h').trans ?_
        show (pyJoin (y :: ys)).data <:+: ((x ++ ", ") ++ pyJoin (y :: ys)).data
        rw [String.data_append]
        exact (List.suffix_append _ _).isInfix

/-- C3 (code bug): on the spec's scenario — `criteria='task'` over rows whose
task values are the strings `rest` and `motor`, fresh split path — the files
`rest.csv` and `motor.csv` are indeed created (one per distinct value), but
iterating `split` then raises `int('rest')`'s `ValueError` inside
`category_list`, which coerces every file-name stem to an integer, so no view
is ever yielded — not the claimed motor-then-rest sequence of views. -/
theorem C3_string_categories_crash :
    genBody ⟨"task", dfC3⟩ none
      = (.error (intErr "rest"),
        some [("rest.csv", DataFrame.mk ["subject_id", "trial_id", "task"]
            [[.pstr "A", .pint 0, .pstr "rest"]]),
          ("motor.csv", DataFrame.mk ["subject_id", "trial_id", "task"]
            [[.pstr "A", .pint 1, .pstr "motor"]])]) := by decide

/-- C5 counterexample: after the degenerate-split failure of `dsB` on a fresh
path, the split directory remains, created and empty; a later call on that
same path does not behave as if the split had never been attempted — it takes
the reuse branch and fails reading the missing `train.csv`, whereas the same
dataset on a truly fresh path succeeds. -/
theorem C5_counterexample :
    (train_test_split_cross_trial (mkRat 1 2) dsB .absent).2
        = .present none none
    ∧ (train_test_split_cross_trial (mkRat 1 2) dsA2 (.present none none)).1
        = .error (fileErr "train.csv")
    ∧ exceptOk (train_test_split_cross_trial (mkRat 1 2) dsA2 .absent).1
        = true := by decide

/-- C5 as amended: a compute-phase error does prevent every partition file
from being written — for `train_test_split_cross_trial` the state after a
failing fresh call is the created directory with no files, and likewise a
`split_info_constructor` failure leaves `Subcategory`'s directory created and
empty — but the created directory itself persists. -/
theorem C5_amended (t : ℚ) (ds : Dataset) (e : String) (c : String)
    (df : DataFrame) (e2 : String) :
    (computeSplitInfo t ds.info = .error e →
      train_test_split_cross_trial t ds .absent
        = (.error e, .present none none))
    ∧ (split_info_constructor c df = .error e2 →
      genBody ⟨c, df⟩ none = (.error e2, some [])) := by
  constructor
  · intro h
    rw [train_test_split_cross_trial, h]
  · intro h
    simp only [genBody]
    rw [h]

/-- Witness for C5's amended statement, at `dsB` (degenerate subject `B`) and
at `dfC3` with the invalid criteria `bogus`. -/
theorem C5_amended_witness :
    train_test_split_cross_trial (mkRat 1 2) dsB .absent
        = (.error (sklearnEmptyTrainMsg 1 (mkRat 1 2)), .present none none)
    ∧ genBody ⟨"bogus", dfC3⟩ none
        = (.error (assertMsg "bogus" ["subject_id", "trial_id", "task"]),
          some []) :=
  ⟨(C5_amended (mkRat 1 2) dsB (sklearnEmptyTrainMsg 1 (mkRat 1 2)) "bogus"
      dfC3 (assertMsg "bogus" ["subject_id", "trial_id", "task"])).1
      (by decide),
   (C5_amended (mkRat 1 2) dsB (sklearnEmptyTrainMsg 1 (mkRat 1 2)) "bogus"
      dfC3 (assertMsg "bogus" ["subject_id", "trial_id", "task"])).2
      (by decide)⟩

/-- C6 counterexample: with the invalid criteria `bogus` on a fresh path the
error is raised only after the split directory has been created (the
resulting state is the directory with no files, not a non-existent one), and
on an existing path the criteria is not validated at all — the call yields a
view with no error. -/
theorem C6_counterexample :
    (genBody ⟨"bogus", dfC3⟩ none
        = (.error (assertMsg "bogus" ["subject_id", "trial_id", "task"]),
          some []))
    ∧ genBody ⟨"bogus", dfC3⟩ (some [("3.csv", dfC3)])
        = (.ok [dfC3], some [("3.csv", dfC3)]) := by decide

/-- C6 as amended: on a fresh split path an invalid `criteria` makes
`Subcategory.split` fail with the assertion message, which mentions every
valid column name, before any file is written or read — but after the split
directory has been created (and after the directory existence check). -/
theorem C6_amended (c : String) (df : DataFrame) (h : c ∉ df.columns) :
    genBody ⟨c, df⟩ none = (.error (assertMsg c df.columns), some [])
    ∧ ∀ col ∈ df.columns, col.data <:+: (assertMsg c df.columns).data := by
  constructor
  · simp only [genBody, split_info_constructor, if_neg h]
  · intro col hcol
    refine (pyJoin_sub hcol).trans ?_
    refine ⟨"Unsupported criteria ".data ++ c.data ++
      ", please select one of the following options [".data, "].".data, ?_⟩
    rw [assertMsg]
    simp only [String.data_append, List.append_assoc]

/-- Witness for C6's amended statement at `dfInt` with criteria `nope`. -/
theorem C6_amended_witness :
    genBody ⟨"nope", dfInt⟩ none
        = (.error (assertMsg "nope" dfInt.columns), some [])
    ∧ ∀ col ∈ dfInt.columns,
        col.data <:+: (assertMsg "nope" dfInt.columns).data :=
  C6_amended "nope" dfInt (by decide)

/-- C7: calling split twice with the same path and unchanged dataset and disk
state gives identical partition tables: the successful fresh call leaves
exactly its two tables on disk, the second call returns the same views and
leaves the state untouched; likewise a second `Subcategory.split` run over
the directory the first run populated yields the same views from the same
files. -/
theorem C7_idempotent_reuse {t : ℚ} {ds : Dataset} {r : Dataset × Dataset}
    {fs1 : SplitDir} {c : String} {df : DataFrame}
    {views : List DataFrame} {sfs : SubFS}
    (h : train_test_split_cross_trial t ds .absent = (.ok r, fs1))
    (h2 : genBody ⟨c, df⟩ none = (.ok views, sfs)) :
    train_test_split_cross_trial t ds fs1 = (.ok r, fs1)
    ∧ fs1 = .present (some r.1.info) (some r.2.info)
    ∧ genBody ⟨c, df⟩ sfs = (.ok views, sfs) := by
  obtain ⟨r1, r2⟩ := r
  obtain ⟨hc, hcfg1, hcfg2, hfs⟩ := cross_absent_ok_inv h
  subst hfs
  have e1 : { ds with info := r1.info } = r1 := Dataset.ext' rfl hcfg1.symm
  have e2 : { ds with info := r2.info } = r2 := Dataset.ext' rfl hcfg2.symm
  refine ⟨?_, rfl, ?_⟩
  · rw [train_test_split_cross_trial, e1, e2]
  · simp only [genBody] at h2
    cases hsc : split_info_constructor c df with
    | error e =>
      rw [hsc] at h2
      injection h2 with ha hb
      cases ha
    | ok files =>
      rw [hsc] at h2
      injection h2 with ha hb
      subst hb
      simp only [genBody]
      rw [ha]

/-- Witness for C7: the fresh computation on `dsGood` and the fresh
`Subcategory` computation on `dfInt`, replayed over the state they left. -/
theorem C7_idempotent_reuse_witness :
    train_test_split_cross_trial (mkRat 1 5) dsGood
        (.present (some [⟨"A", 0, 0⟩, ⟨"A", 1, 1⟩, ⟨"A", 2, 2⟩, ⟨"A", 3, 3⟩])
          (some [⟨"A", 4, 4⟩]))
      = (.ok
          (Dataset.mk [⟨"A", 0, 0⟩, ⟨"A", 1, 1⟩, ⟨"A", 2, 2⟩, ⟨"A", 3, 3⟩] 7,
            Dataset.mk [⟨"A", 4, 4⟩] 7),
        .present (some [⟨"A", 0, 0⟩, ⟨"A", 1, 1⟩, ⟨"A", 2, 2⟩, ⟨"A", 3, 3⟩])
          (some [⟨"A", 4, 4⟩]))
    ∧ SplitDir.present
        (some [⟨"A", 0, 0⟩, ⟨"A", 1, 1⟩, ⟨"A", 2, 2⟩, ⟨"A", 3, 3⟩])
        (some [⟨"A", 4, 4⟩])
      = .present
        (some (Dataset.mk [⟨"A", 0, 0⟩, ⟨"A", 1, 1⟩, ⟨"A", 2, 2⟩,
          ⟨"A", 3, 3⟩] 7).info)
        (some (Dataset.mk [⟨"A", 4, 4⟩] 7).info)
    ∧ genBody ⟨"task", dfInt⟩
        (some [("3.csv", DataFrame.mk ["subject_id", "trial_id", "task"]
            [[.pstr "A", .pint 0, .pint 3]]),
          ("1.csv", DataFrame.mk ["subject_id", "trial_id", "task"]
            [[.pstr "A", .pint 1, .pint 1]])])
      = (.ok [DataFrame.mk ["subject_id", "trial_id", "task"]
            [[.pstr "A", .pint 1, .pint 1]],
          DataFrame.mk ["subject_id", "trial_id", "task"]
            [[.pstr "A", .pint 0, .pint 3]]],
        some [("3.csv", DataFrame.mk ["subject_id", "trial_id", "task"]
            [[.pstr "A", .pint 0, .pint 3]]),
          ("1.csv", DataFrame.mk ["subject_id", "trial_id", "task"]
            [[.pstr "A", .pint 1, .pint 1]])]) :=
  @C7_idempotent_reuse (mkRat 1 5) dsGood
    (Dataset.mk [⟨"A", 0, 0⟩, ⟨"A", 1, 1⟩, ⟨"A", 2, 2⟩, ⟨"A", 3, 3⟩] 7,
      Dataset.mk [⟨"A", 4, 4⟩] 7)
    (.present (some [⟨"A", 0, 0⟩, ⟨"A", 1, 1⟩, ⟨"A", 2, 2⟩, ⟨"A", 3, 3⟩])
      (some [⟨"A", 4, 4⟩]))
    "task" dfInt
    [DataFrame.mk ["subject_id", "trial_id", "task"]
        [[.pstr "A", .pint 1, .pint 1]],
      DataFrame.mk ["subject_id", "trial_id", "task"]
        [[.pstr "A", .pint 0, .pint 3]]]
    (some [("3.csv", DataFrame.mk ["subject_id", "trial_id", "task"]
        [[.pstr "A", .pint 0, .pint 3]]),
      ("1.csv", DataFrame.mk ["subject_id", "trial_id", "task"]
        [[.pstr "A", .pint 1, .pint 1]])])
    (by decide) (by decide)

/-- C10: calling `Subcategory.split` performs no side effect at all — the
split-directory state is returned untouched and only the generator object is
produced; the persistence gate (directory check, creation, population) runs
on iteration: draining the generator from an absent directory always leaves
the directory created. -/
theorem C10_generator_lazy (c : String) (ds : DataFrame) (fs : SubFS) :
    splitCall c ds fs = (⟨c, ds⟩, fs)
    ∧ (genBody ⟨c, ds⟩ none).2.isSome = true := by
  refine ⟨rfl, ?_⟩
  simp only [genBody]
  cases hsc : split_info_constructor c ds <;> simp

end TorchEEG
